import Mathlib

/-!
Verification development for the food-expiry-tracker OCR engine
(`src/ocr_engine.py`).  The date-extraction pipeline is embedded shallowly:

* text is a `List Char` (Python `str`);
* the seven entries of `DateExtractor.DATE_PATTERNS` are hand-compiled into
  executable matchers with Python `re` semantics (leftmost match, greedy
  quantifiers with backtracking where it can matter, `\b` word boundaries,
  `re.IGNORECASE`, non-overlapping `finditer` scanning);
* Python `datetime` construction is `makeDate` (`ValueError` ↦ `none`);
* uncaught Python exceptions are `Except.error` values carrying the message
  (`parse_date` raises `TypeError` on month-name matches because it compares
  the string `year` with `100`, and `ValueError` on `Mon D, Y` matches
  because it unpacks two digit groups into three variables);
* floats are modelled as rationals, instants as integer seconds since the
  Unix epoch, and `timedelta.days` as floor division by 86400.
-/

namespace FoodExpiry

set_option maxRecDepth 100000

abbrev Txt := List Char

/-- A Python exception, identified by its message. -/
abbrev PyErr := Txt

/-- Message of the `TypeError` raised by `if year < 100:` when `year` is the
string captured by a month-name pattern (ocr_engine.py line 127). -/
def typeErrorMsg : Txt := "TypeError: str and int comparison".toList

/-- Message of the `ValueError` raised by unpacking two digit groups into
`a, b, c` for a `Mon D, Y` match (ocr_engine.py line 121). -/
def valueErrorMsg : Txt := "ValueError: not enough values to unpack".toList

/-! ## Character classes and scanning helpers -/

def isSep (c : Char) : Bool := c = '-' || c = '/' || c = '.'

/-- Python `\w` (ASCII range, as produced by OCR text). -/
def isWordChar (c : Char) : Bool := c.isAlphanum || c = '_'

def wordOpt : Option Char → Bool
  | some c => isWordChar c
  | none => false

def nextIsWord : Txt → Bool
  | [] => false
  | c :: _ => isWordChar c

def spanDigits (s : Txt) : Txt × Txt := s.span Char.isDigit

/-- Python whitespace, as recognized by both `str.strip()` and the `\s`
class of a `str` pattern (`str.isspace`): 0x09-0x0D (tab, LF, VT, FF, CR),
0x1C-0x1F, space, NEL, NBSP and the Unicode space separators. -/
def pyIsSpace (c : Char) : Bool :=
  ('\u0009' ≤ c && c ≤ '\u000d') || ('\u001c' ≤ c && c ≤ '\u001f') ||
  c = ' ' || c = '\u0085' || c = '\u00a0' || c = '\u1680' ||
  ('\u2000' ≤ c && c ≤ '\u200a') || c = '\u2028' || c = '\u2029' ||
  c = '\u202f' || c = '\u205f' || c = '\u3000'

def spanWs (s : Txt) : Txt × Txt := s.span pyIsSpace

def lowerTxt (s : Txt) : Txt := s.map Char.toLower

/-- The prefix of `s` consumed when matching left `rest` unread. -/
def consumedPart (s rest : Txt) : Txt := s.take (s.length - rest.length)

/-- One regex match: `group(0)` and the list of capture groups. -/
structure RMatch where
  raw : Txt
  groups : List Txt
deriving DecidableEq, Repr

/-- A matcher tries one pattern at the current position; it receives the
previous character (for `\b`) and returns `group(0)`, the groups and the
remaining text. -/
abbrev Matcher := Option Char → Txt → Option (Txt × List Txt × Txt)

/-- `re.finditer`: scan every position left to right, non-overlapping. -/
def scanGo (m : Matcher) : Nat → Option Char → Txt → List RMatch
  | 0, _, _ => []
  | _ + 1, _, [] => []
  | fuel + 1, prev, c :: rest =>
    match m prev (c :: rest) with
    | some (raw, gs, rem) =>
      ⟨raw, gs⟩ :: scanGo m fuel (raw.getLast? <|> prev) rem
    | none => scanGo m fuel (some c) rest

def finditer (m : Matcher) (text : Txt) : List RMatch :=
  scanGo m (text.length + 1) none text

/-- `re.search`: first match, if any. -/
def reSearch (m : Matcher) (text : Txt) : Option RMatch :=
  (finditer m text).head?

/-! ## The seven entries of `DateExtractor.DATE_PATTERNS` -/

/-- Pattern 1: `\b(\d{1,2})[sep](\d{1,2})[sep](\d{2,4})\b`. -/
def tryNumericDMY : Matcher := fun prev s =>
  if wordOpt prev then none else
  let (r1, s1) := spanDigits s
  if r1.length < 1 || 2 < r1.length then none else
  match s1 with
  | sep1 :: s2 =>
    if !isSep sep1 then none else
    let (r2, s3) := spanDigits s2
    if r2.length < 1 || 2 < r2.length then none else
    match s3 with
    | sep2 :: s4 =>
      if !isSep sep2 then none else
      let (r3, s5) := spanDigits s4
      if r3.length < 2 || 4 < r3.length then none else
      if nextIsWord s5 then none else
      some (consumedPart s s5, [r1, r2, r3], s5)
    | [] => none
  | [] => none

/-- Pattern 2: `\b(\d{4})[sep](\d{1,2})[sep](\d{1,2})\b`. -/
def tryNumericYMD : Matcher := fun prev s =>
  if wordOpt prev then none else
  let (r1, s1) := spanDigits s
  if r1.length ≠ 4 then none else
  match s1 with
  | sep1 :: s2 =>
    if !isSep sep1 then none else
    let (r2, s3) := spanDigits s2
    if r2.length < 1 || 2 < r2.length then none else
    match s3 with
    | sep2 :: s4 =>
      if !isSep sep2 then none else
      let (r3, s5) := spanDigits s4
      if r3.length < 1 || 2 < r3.length then none else
      if nextIsWord s5 then none else
      some (consumedPart s s5, [r1, r2, r3], s5)
    | [] => none
  | [] => none

/-- Pattern 3: `\b(\d{1,2})\.(\d{1,2})\.(\d{2,4})\b`. -/
def tryDotted : Matcher := fun prev s =>
  if wordOpt prev then none else
  let (r1, s1) := spanDigits s
  if r1.length < 1 || 2 < r1.length then none else
  match s1 with
  | sep1 :: s2 =>
    if sep1 ≠ '.' then none else
    let (r2, s3) := spanDigits s2
    if r2.length < 1 || 2 < r2.length then none else
    match s3 with
    | sep2 :: s4 =>
      if sep2 ≠ '.' then none else
      let (r3, s5) := spanDigits s4
      if r3.length < 2 || 4 < r3.length then none else
      if nextIsWord s5 then none else
      some (consumedPart s s5, [r1, r2, r3], s5)
    | [] => none
  | [] => none

def monthNames : List Txt :=
  ["Jan", "Feb", "Mar", "Apr", "May", "Jun",
   "Jul", "Aug", "Sep", "Oct", "Nov", "Dec"].map String.toList

/-- Case-insensitive three-letter month alternation; captures the original
characters. -/
def matchMonthName : Txt → Option (Txt × Txt)
  | c1 :: c2 :: c3 :: rest =>
    if monthNames.any (fun m => lowerTxt m = lowerTxt [c1, c2, c3]) then
      some ([c1, c2, c3], rest)
    else none
  | _ => none

/-- `(?:st|nd|rd|th)?`, case-insensitive (no month name starts with one of
these two-letter suffixes, so consuming when present is faithful). -/
def stripOrdinal (s : Txt) : Txt :=
  match s with
  | c1 :: c2 :: rest =>
    if ["st", "nd", "rd", "th"].any (fun o => o.toList = lowerTxt [c1, c2]) then rest
    else s
  | _ => s

/-- Pattern 4:
`\b(\d{1,2})\s*(?:st|nd|rd|th)?\s*(Jan|...|Dec)[a-z]*\.?\s*(\d{4})\b`. -/
def tryDayMonName : Matcher := fun prev s =>
  if wordOpt prev then none else
  let (r1, s1) := spanDigits s
  if r1.length < 1 || 2 < r1.length then none else
  let s2 := (spanWs s1).2
  let s3 := stripOrdinal s2
  let s4 := (spanWs s3).2
  match matchMonthName s4 with
  | none => none
  | some (mon, s5) =>
    let s6 := (s5.span Char.isAlpha).2
    let s7 := match s6 with
      | '.' :: r => r
      | _ => s6
    let s8 := (spanWs s7).2
    let (r3, s9) := spanDigits s8
    if r3.length = 4 && !nextIsWord s9 then
      some (consumedPart s s9, [r1, mon, r3], s9)
    else none

/-- Continuation of pattern 5 after the day group was fixed to `k` digits. -/
def monNameDayTail (s : Txt) (mon : Txt) (s4 : Txt) (run : Txt) (k : Nat) :
    Option (Txt × List Txt × Txt) :=
  let d := run.take k
  let s5 := s4.drop k
  let s6 := stripOrdinal s5
  let s7 := (s6.span (fun c => c = ',' || c = '.' || pyIsSpace c)).2
  let (r3, s8) := spanDigits s7
  if r3.length = 4 && !nextIsWord s8 then
    some (consumedPart s s8, [mon, d, r3], s8)
  else none

/-- Pattern 5:
`\b(Jan|...|Dec)[a-z]*\.?\s*(\d{1,2})(?:st|nd|rd|th)?[,.\s]*(\d{4})\b`;
the leading `\b` sits before a letter, so it requires a non-word previous
character. -/
def tryMonNameDay : Matcher := fun prev s =>
  if wordOpt prev then none else
  match matchMonthName s with
  | none => none
  | some (mon, s1) =>
    let s2 := (s1.span Char.isAlpha).2
    let s3 := match s2 with
      | '.' :: r => r
      | _ => s2
    let s4 := (spanWs s3).2
    let (run, _) := spanDigits s4
    if run.length = 0 then none else
    let k2 := min run.length 2
    match monNameDayTail s mon s4 run k2 with
    | some r => some r
    | none => if k2 = 2 then monNameDayTail s mon s4 run 1 else none

/-- Keyword alternation of pattern 6 (source order). -/
def keywordsFull : List Txt :=
  ["EXP", "Exp", "Expiry", "Best Before", "Use By", "BB",
   "USE BY", "Sell By", "MFG", "Manufactured"].map String.toList

/-- Keyword alternation of pattern 7 (a strictly smaller set). -/
def keywordsIso : List Txt :=
  ["EXP", "Exp", "Expiry", "Best Before", "Use By"].map String.toList

/-- Case-insensitive literal at the head of `s`. -/
def ciStarts (kw s : Txt) : Option Txt :=
  if kw.length ≤ s.length ∧ lowerTxt (s.take kw.length) = lowerTxt kw then
    some (s.drop kw.length)
  else none

/-- Date core of pattern 6: `\d{1,2}[sep]\d{1,2}[sep]\d{2,4}` with no
trailing `\b`; returns the rest after the date. -/
def kwDateCore (t : Txt) : Option Txt :=
  let (r1, u1) := spanDigits t
  if r1.length < 1 || 2 < r1.length then none else
  match u1 with
  | c1 :: u2 =>
    if !isSep c1 then none else
    let (r2, u3) := spanDigits u2
    if r2.length < 1 || 2 < r2.length then none else
    match u3 with
    | c2 :: u4 =>
      if !isSep c2 then none else
      let (r3, _) := spanDigits u4
      if r3.length < 2 then none else
      some (u4.drop (min r3.length 4))
    | [] => none
  | [] => none

/-- Date core of pattern 7: `\d{4}[sep]\d{1,2}[sep]\d{1,2}`, no `\b`. -/
def kwIsoCore (t : Txt) : Option Txt :=
  let (r1, u1) := spanDigits t
  if r1.length ≠ 4 then none else
  match u1 with
  | c1 :: u2 =>
    if !isSep c1 then none else
    let (r2, u3) := spanDigits u2
    if r2.length < 1 || 2 < r2.length then none else
    match u3 with
    | c2 :: u4 =>
      if !isSep c2 then none else
      let (r3, _) := spanDigits u4
      if r3.length < 1 then none else
      some (u4.drop (min r3.length 2))
    | [] => none
  | [] => none

/-- `\s*[:=]?\s*` followed by the date core; the single capture group is the
date substring. -/
def kwCont (core : Txt → Option Txt) (s afterKw : Txt) :
    Option (Txt × List Txt × Txt) :=
  let t1 := (spanWs afterKw).2
  let t2 := match t1 with
    | c :: r => if c = ':' || c = '=' then r else t1
    | [] => t1
  let t3 := (spanWs t2).2
  match core t3 with
  | some rest => some (consumedPart s rest, [consumedPart t3 rest], rest)
  | none => none

/-- Ordered keyword alternation with backtracking into the continuation. -/
def tryKwList (kws : List Txt) (core : Txt → Option Txt) (s : Txt) :
    Option (Txt × List Txt × Txt) :=
  match kws with
  | [] => none
  | kw :: rest =>
    match ciStarts kw s with
    | some afterKw =>
      match kwCont core s afterKw with
      | some r => some r
      | none => tryKwList rest core s
    | none => tryKwList rest core s

/-- Pattern 6: keyword-prefixed numeric date (single capture group). -/
def tryKwNumeric : Matcher := fun _ s => tryKwList keywordsFull kwDateCore s

/-- Pattern 7: keyword-prefixed ISO date (single capture group). -/
def tryKwIso : Matcher := fun _ s => tryKwList keywordsIso kwIsoCore s

/-- `DateExtractor.DATE_PATTERNS`, in source order. -/
def DATE_PATTERNS : List Matcher :=
  [tryNumericDMY, tryNumericYMD, tryDotted, tryDayMonName, tryMonNameDay,
   tryKwNumeric, tryKwIso]

/-! ## `DateExtractor.parse_date` -/

/-- Python `str.isdigit`. -/
def pyIsdigit (s : Txt) : Bool := !s.isEmpty && s.all Char.isDigit

/-- Python `int(...)` on a digit string. -/
def toIntTxt (s : Txt) : Int :=
  ((s.foldl (fun n c => n * 10 + (c.toNat - 48)) 0 : Nat) : Int)

/-- `DateExtractor.MONTH_MAP` lookup. -/
def MONTH_MAP (s : Txt) : Option Int :=
  if s = "jan".toList then some 1 else if s = "feb".toList then some 2 else
  if s = "mar".toList then some 3 else if s = "apr".toList then some 4 else
  if s = "may".toList then some 5 else if s = "jun".toList then some 6 else
  if s = "jul".toList then some 7 else if s = "aug".toList then some 8 else
  if s = "sep".toList then some 9 else if s = "oct".toList then some 10 else
  if s = "nov".toList then some 11 else if s = "dec".toList then some 12 else
  none

/-- The ambiguous-order rule of `parse_date` (lines 122-125): given numeric
groups `a, b, c`, produce `(day, month, year)`. -/
def interp_numeric (a b c : Int) : Int × Int × Int :=
  if 1 ≤ a ∧ a ≤ 31 ∧ 1 ≤ b ∧ b ≤ 12 then (a, b, c) else (b, a, c)

def isLeap (y : Int) : Bool := (y % 4 = 0 && y % 100 ≠ 0) || y % 400 = 0

def daysInMonth (y m : Int) : Int :=
  if m = 1 ∨ m = 3 ∨ m = 5 ∨ m = 7 ∨ m = 8 ∨ m = 10 ∨ m = 12 then 31
  else if m = 4 ∨ m = 6 ∨ m = 9 ∨ m = 11 then 30
  else if m = 2 then (if isLeap y then 29 else 28)
  else 0

/-- A calendar date, UTC-anchored midnight (the `datetime` values the
extractor builds carry no time of day). -/
structure Date where
  year : Nat
  month : Nat
  day : Nat
deriving DecidableEq, Repr

/-- `datetime(year, month, day, tzinfo=UTC)`: `none` models `ValueError`. -/
def makeDate (y m d : Int) : Option Date :=
  if 1 ≤ y ∧ y ≤ 9999 ∧ 1 ≤ m ∧ m ≤ 12 ∧ 1 ≤ d ∧ d ≤ daysInMonth y m then
    some ⟨y.toNat, m.toNat, d.toNat⟩
  else none

/-- A syntactically valid calendar date (what `datetime` accepts). -/
def ValidDate (dt : Date) : Prop :=
  1 ≤ dt.year ∧ 1 ≤ dt.month ∧ dt.month ≤ 12 ∧ 1 ≤ dt.day ∧
    (dt.day : Int) ≤ daysInMonth (dt.year : Int) (dt.month : Int)

instance (dt : Date) : Decidable (ValidDate dt) := by
  unfold ValidDate; infer_instance

/-- Two-digit year widening (lines 127-128): `year += 2000 if year < 50
else 1900`. -/
def yearFix (y : Int) : Int :=
  if y < 100 then (if y < 50 then y + 2000 else y + 1900) else y

/-- Lines 130-135: construct the `datetime` (a `ValueError` is caught and
yields `none`) and apply the 2020-2035 plausibility window. -/
def tryReturnDate (day mon yrRaw : Int) : Option Date :=
  match makeDate (yearFix yrRaw) mon day with
  | some dt =>
    if 2020 ≤ yearFix yrRaw ∧ yearFix yrRaw ≤ 2035 then some dt else none
  | none => none

/-- The numeric branch (lines 121-125): unpack the digit groups — a
`ValueError` escapes if there are not exactly three — then interpret their
order with `interp_numeric` and finish with `tryReturnDate`. -/
def parseNumeric (digs : List Txt) : Except PyErr (Option Date) :=
  match digs with
  | [ga, gb, gc] =>
    .ok (tryReturnDate (interp_numeric (toIntTxt ga) (toIntTxt gb) (toIntTxt gc)).1
      (interp_numeric (toIntTxt ga) (toIntTxt gb) (toIntTxt gc)).2.1
      (interp_numeric (toIntTxt ga) (toIntTxt gb) (toIntTxt gc)).2.2)
  | _ => .error valueErrorMsg

/-- The body of the `parse_date` loop for one successful pattern match.
`ok none` means "fall through to the next pattern". -/
def parseFromMatch (m : RMatch) : Except PyErr (Option Date) :=
  if m.groups.length ≠ 3 then .ok none else
  match m.groups with
  | [_g0, g1, _g2] =>
    if pyIsdigit g1 = false then
      match MONTH_MAP ((lowerTxt g1).take 3) with
      | none => .ok none
      | some _month =>
        -- day, year = groups[0], groups[2] leaves both as strings, so the
        -- following `if year < 100:` compares str with int: TypeError.
        .error typeErrorMsg
    else parseNumeric (m.groups.filter pyIsdigit)
  | _ => .ok none

def parseGo (text : Txt) : List Matcher → Except PyErr (Option Date)
  | [] => .ok none
  | p :: ps =>
    match reSearch p text with
    | none => parseGo text ps
    | some m =>
      match parseFromMatch m with
      | .error e => .error e
      | .ok (some dt) => .ok (some dt)
      | .ok none => parseGo text ps

/-- `DateExtractor.parse_date` (may raise, see `parseFromMatch`). -/
def parse_date (text : Txt) : Except PyErr (Option Date) :=
  parseGo text DATE_PATTERNS

/-! ## `DateExtractor.extract_potential_dates` -/

structure Candidate where
  date : Date
  raw : Txt
  confidence : ℚ
deriving DecidableEq, Repr

def extractMatches : List RMatch → List Candidate → Except PyErr (List Candidate)
  | [], acc => .ok acc
  | m :: rest, acc =>
    match parse_date m.raw with
    | .error e => .error e
    | .ok none => extractMatches rest acc
    | .ok (some dt) =>
      extractMatches rest (acc ++ [{ date := dt, raw := m.raw, confidence := 85 / 100 }])

def extractPats (text : Txt) : List Matcher → List Candidate → Except PyErr (List Candidate)
  | [], acc => .ok acc
  | p :: ps, acc =>
    match extractMatches (finditer p text) acc with
    | .error e => .error e
    | .ok acc2 => extractPats text ps acc2

/-- `DateExtractor.extract_potential_dates`. -/
def extract_potential_dates (text : Txt) : Except PyErr (List Candidate) :=
  extractPats text DATE_PATTERNS []

/-! ## `DateExtractor.select_best_expiry` -/

/-- Days since 1970-01-01 of a civil date (Gregorian, proleptic). -/
def daysFromCivil (y m d : Int) : Int :=
  let y2 := if m ≤ 2 then y - 1 else y
  let era := Int.fdiv y2 400
  let yoe := y2 - era * 400
  let mp := if 2 < m then m - 3 else m + 9
  let doy := Int.fdiv (153 * mp + 2) 5 + d - 1
  let doe := yoe * 365 + Int.fdiv yoe 4 - Int.fdiv yoe 100 + doy
  era * 146097 + doe - 719468

/-- Seconds since the epoch of a date's UTC midnight. -/
def dateToSec (dt : Date) : Int :=
  86400 * daysFromCivil dt.year dt.month dt.day

/-- The dict `{**cand, 'confidence': ..., 'days_until': ...}` built by
`select_best_expiry`. -/
structure Scored where
  date : Date
  raw : Txt
  confidence : ℚ
  days_until : Int
deriving DecidableEq, Repr

/-- The loop body of `select_best_expiry` (lines 162-173): `now` is the
value of the ambient `datetime.now(UTC)` read at line 159, in epoch
seconds.  `(cand['date'] - now).days` is `timedelta.days`, i.e. floor
division of the difference by 86400. -/
def score_candidate (now : Int) (c : Candidate) : Scored :=
  let days := Int.fdiv (dateToSec c.date - now) 86400
  let conf :=
    if 1 ≤ days ∧ days ≤ 540 then c.confidence * (14 / 10)
    else if 1 ≤ days ∧ days ≤ 1825 then c.confidence * (9 / 10)
    else c.confidence * (3 / 10)
  { date := c.date, raw := c.raw, confidence := min conf 1, days_until := days }

/-- One step of Python `max(xs, key=f)`: the running best is replaced only
on a strictly greater key. -/
def maxStep (f : Scored → ℚ) (best y : Scored) : Scored :=
  if f best < f y then y else best

/-- Python `max(xs, key=f)`: the first of equal maxima wins. -/
def pyMaxBy (f : Scored → ℚ) : List Scored → Option Scored
  | [] => none
  | x :: xs => some (xs.foldl (maxStep f) x)

/-- `DateExtractor.select_best_expiry`; the `now` parameter stands for the
`datetime.now(UTC)` the source reads at line 159. -/
def select_best_expiry (now : Int) (cands : List Candidate) : Option Scored :=
  if cands.isEmpty then none
  else pyMaxBy (fun s => s.confidence) (cands.map (score_candidate now))

/-! ## `FoodExpiryDetector._extract_text`

One recognition pass is an external event: either the invocation throws
(`Except.error ()`, caught by the per-profile `except`), or it yields the
recognized text together with the token confidence list of
`image_to_data` (0-100 scale). -/

abbrev PassResult := Except Unit (Txt × List Int)

/-- `np.mean(valid_confs) / 100.0 if valid_confs else 0.0` with
`valid_confs = [int(c) for c in data['conf'] if int(c) >= 0]`. -/
def profile_conf (confs : List Int) : ℚ :=
  let valid := confs.filter (fun c => 0 ≤ c)
  if valid.isEmpty then 0
  else ((valid.foldl (· + ·) 0 : Int) : ℚ) / (valid.length : ℚ) / 100

/-- Python `str.strip()` (no arguments strips `str.isspace` characters,
including VT and FF such as the Tesseract page separator). -/
def pyStrip (s : Txt) : Txt :=
  ((s.dropWhile pyIsSpace).reverse.dropWhile pyIsSpace).reverse

/-- The profile loop of `_extract_text`, accumulating `texts` and `confs`. -/
def extractTextGo : List PassResult → List Txt → List ℚ → List Txt × List ℚ
  | [], texts, confs => (texts, confs)
  | .error _ :: rest, texts, confs => extractTextGo rest texts confs
  | .ok (t, cs) :: rest, texts, confs =>
    if (pyStrip t).isEmpty then extractTextGo rest texts confs
    else extractTextGo rest (texts ++ [t]) (confs ++ [profile_conf cs])

/-- `" ".join texts`. -/
def joinSpace : List Txt → Txt
  | [] => []
  | [t] => t
  | t :: rest => t ++ ' ' :: joinSpace rest

/-- The four page-segmentation profiles of the source loop. -/
def PSM_LIST : List Nat := [6, 7, 11, 3]

/-- Declarative form of one pass of the profile loop: `none` when the pass
is excluded (threw, or empty/whitespace text), otherwise the kept text and
its per-profile confidence. -/
def passKeep : PassResult → Option (Txt × ℚ)
  | .error _ => none
  | .ok (t, cs) =>
    if (pyStrip t).isEmpty then none else some (t, profile_conf cs)

/-- `FoodExpiryDetector._extract_text`: `runs psm` is the outcome of the
external recognition capability for that profile. -/
def extract_text (runs : Nat → PassResult) : Txt × ℚ :=
  let acc := extractTextGo (PSM_LIST.map runs) [] []
  if acc.1.isEmpty then ([], 0)
  else (joinSpace acc.1, (acc.2.foldl (· + ·) 0) / (acc.2.length : ℚ))

/-! ## `FoodExpiryDetector.extract_expiry_date` -/

/-- Python `round(q, 3)` (round half to even), on the rational model. -/
def round3 (q : ℚ) : ℚ :=
  let x := q * 1000
  let f : Int := x.floor
  let r := x - (f : ℚ)
  let n : Int :=
    if r < 1 / 2 then f
    else if 1 / 2 < r then f + 1
    else if f % 2 = 0 then f else f + 1
  (n : ℚ) / 1000

/-- The four distinct result-dict shapes returned by
`extract_expiry_date`: success (line 250), the empty-candidates failure
(line 231), the defensive selector-`None` failure (line 241), and the
catch-all exception failure (line 262, always 0.0 OCR confidence). -/
inductive FacadeResult where
  | success (date : Date) (raw : Txt) (confidence : ℚ)
      (days_until_expiry : Int) (ocr_confidence : ℚ)
  | failureNoPattern (raw_text : Txt) (ocr_confidence : ℚ)
  | failureNoValidFuture (candidates : List Txt) (ocr_confidence : ℚ)
  | failureException (error : Txt) (ocr_confidence : ℚ)
deriving DecidableEq, Repr

/-- `text[:200] + "..." if len(text) > 200 else text`. -/
def truncate200 (t : Txt) : Txt :=
  if 200 < t.length then t.take 200 ++ "...".toList else t

/-- `FoodExpiryDetector.extract_expiry_date`.  The external effects are
parameters: `loadRes` is the image load/decode step (which may raise),
`runs` the recognition passes, `nowSel` the ambient clock read inside
`select_best_expiry` (line 159) and `nowFin` the second ambient clock read
at line 248.  The surrounding `try`/`except` maps every raised exception to
the `failureException` dict with 0.0 OCR confidence. -/
def extract_expiry_date (loadRes : Except PyErr Unit) (runs : Nat → PassResult)
    (nowSel nowFin : Int) : FacadeResult :=
  match loadRes with
  | .error e => .failureException e 0
  | .ok _ =>
    match extract_potential_dates (extract_text runs).1 with
    | .error e => .failureException e 0
    | .ok candidates =>
      if candidates.isEmpty then
        .failureNoPattern (truncate200 (extract_text runs).1) (extract_text runs).2
      else
        match select_best_expiry nowSel candidates with
        | none =>
          .failureNoValidFuture (candidates.map Candidate.raw) (extract_text runs).2
        | some best =>
          .success best.date best.raw (round3 best.confidence)
            (Int.fdiv (dateToSec best.date - nowFin) 86400)
            (round3 (extract_text runs).2)

/-! ## Theorems -/

/-- Claim C1 (code bug).  The spec promises that every valid 2020-2035
date rendered in any of the 7 supported shapes yields a matching candidate.
The code fails for the ISO shapes and the month-name shapes: `parse_date`
destructures every 3-group numeric match as `(day-ish, month-ish, year)`,
so an ISO match `2026-05-13` becomes `day=5, month=2026, year=2013` and is
discarded as an invalid calendar date — no candidate at all; a
`D Mon YYYY` match leaves `day`/`year` as strings and raises `TypeError`
at `if year < 100`; a `Mon D, YYYY` match has only two digit groups and
raises `ValueError` at the three-way unpacking. -/
theorem iso_and_month_name_shapes_fail :
    extract_potential_dates ("2026-05-13".toList) = .ok [] ∧
    extract_potential_dates ("5 Jan 2026".toList) = .error typeErrorMsg ∧
    extract_potential_dates ("Jan 5, 2026".toList) = .error valueErrorMsg := by
  refine ⟨by with_unfolding_all rfl, by with_unfolding_all rfl, by with_unfolding_all rfl⟩

/-- Claim C4 counterexample.  With encounter order `daysUntil` 10, 400,
2000 and base confidence 0.85 everywhere, the selected candidate has
`daysUntil = 10`, not 400: both the 10- and the 400-day candidates land in
the 1-540 band, are clamped to adjusted confidence 1.0, and the tie is
broken by first-encountered order. -/
theorem select_best_tiebreak_counterexample :
    (select_best_expiry (dateToSec ⟨2026, 1, 1⟩)
      [⟨⟨2026, 1, 11⟩, "a".toList, 85 / 100⟩,
       ⟨⟨2027, 2, 5⟩, "b".toList, 85 / 100⟩,
       ⟨⟨2031, 6, 24⟩, "c".toList, 85 / 100⟩]).map Scored.days_until = some 10 ∧
    (score_candidate (dateToSec ⟨2026, 1, 1⟩)
      ⟨⟨2026, 1, 11⟩, "a".toList, 85 / 100⟩).days_until = 10 ∧
    (score_candidate (dateToSec ⟨2026, 1, 1⟩)
      ⟨⟨2027, 2, 5⟩, "b".toList, 85 / 100⟩).days_until = 400 ∧
    (score_candidate (dateToSec ⟨2026, 1, 1⟩)
      ⟨⟨2031, 6, 24⟩, "c".toList, 85 / 100⟩).days_until = 2000 := by
  refine ⟨by with_unfolding_all decide, by with_unfolding_all decide,
    by with_unfolding_all decide, by with_unfolding_all decide⟩

/-- Claim C4 as amended: in that scenario the `daysUntil = 10` candidate is
selected — it ties with the `daysUntil = 400` candidate at adjusted
confidence 1.0 (both in the 1-540 band, `0.85 × 1.4` clamped) and wins by
first-encountered order, while the `daysUntil = 2000` candidate scores
`0.85 × 0.3 = 0.255`. -/
theorem select_best_tiebreak_first_seen :
    select_best_expiry (dateToSec ⟨2026, 1, 1⟩)
      [⟨⟨2026, 1, 11⟩, "a".toList, 85 / 100⟩,
       ⟨⟨2027, 2, 5⟩, "b".toList, 85 / 100⟩,
       ⟨⟨2031, 6, 24⟩, "c".toList, 85 / 100⟩] =
      some ⟨⟨2026, 1, 11⟩, "a".toList, 1, 10⟩ ∧
    (score_candidate (dateToSec ⟨2026, 1, 1⟩)
      ⟨⟨2026, 1, 11⟩, "a".toList, 85 / 100⟩).confidence = 1 ∧
    (score_candidate (dateToSec ⟨2026, 1, 1⟩)
      ⟨⟨2027, 2, 5⟩, "b".toList, 85 / 100⟩).confidence = 1 ∧
    (score_candidate (dateToSec ⟨2026, 1, 1⟩)
      ⟨⟨2031, 6, 24⟩, "c".toList, 85 / 100⟩).confidence = 51 / 200 := by
  refine ⟨by with_unfolding_all decide, by with_unfolding_all decide,
    by with_unfolding_all decide, by with_unfolding_all decide⟩

/-- Claim C5: resolution of the ambiguous two-numeric-field order.  If
`1 ≤ a ≤ 31` and `1 ≤ b ≤ 12` the match is read as day `a`, month `b`,
otherwise as day `b`, month `a`; concretely `13-05-2026` extracts day 13 /
month 5 and `05-03-2026` extracts day 5 / month 3. -/
theorem ambiguous_order_rule :
    (∀ a b c : Int, (1 ≤ a ∧ a ≤ 31 ∧ 1 ≤ b ∧ b ≤ 12) →
      interp_numeric a b c = (a, b, c)) ∧
    (∀ a b c : Int, ¬(1 ≤ a ∧ a ≤ 31 ∧ 1 ≤ b ∧ b ≤ 12) →
      interp_numeric a b c = (b, a, c)) ∧
    ((extract_potential_dates ("13-05-2026".toList)).toOption.getD []).map
      (fun c => (c.date.day, c.date.month)) = [(13, 5)] ∧
    ((extract_potential_dates ("05-03-2026".toList)).toOption.getD []).map
      (fun c => (c.date.day, c.date.month)) = [(5, 3)] := by
  refine ⟨?_, ?_, by with_unfolding_all rfl, by with_unfolding_all rfl⟩
  · intro a b c h
    simp [interp_numeric, h]
  · intro a b c h
    simp [interp_numeric, h]

/-- Witness for `ambiguous_order_rule` at concrete groups, both branches. -/
theorem ambiguous_order_rule_witness :
    interp_numeric 13 5 2026 = (13, 5, 2026) ∧
    interp_numeric 5 13 2026 = (13, 5, 2026) :=
  ⟨ambiguous_order_rule.1 13 5 2026 (by norm_num),
   ambiguous_order_rule.2.1 5 13 2026 (by norm_num)⟩

/-- Claim C6 counterexample.  `select_best_expiry` reads the ambient clock
itself (line 159) and the facade reads it again at line 248 — two seconds
later here — to recompute the reported `days_until_expiry`; the two reads
straddle the candidate's midnight, so the reported value (-1) differs from
the value computed for the selected candidate during selection (0). -/
theorem facade_recomputed_days_counterexample :
    extract_expiry_date (.ok ())
      (fun n => if n = 6 then .ok ("13-05-2026".toList, [90]) else .error ())
      (dateToSec ⟨2026, 5, 13⟩ - 1) (dateToSec ⟨2026, 5, 13⟩ + 1) =
      .success ⟨2026, 5, 13⟩ ("13-05-2026".toList) (51 / 200) (-1) (9 / 10) ∧
    select_best_expiry (dateToSec ⟨2026, 5, 13⟩ - 1)
      [⟨⟨2026, 5, 13⟩, "13-05-2026".toList, 85 / 100⟩] =
      some ⟨⟨2026, 5, 13⟩, "13-05-2026".toList, 51 / 200, 0⟩ := by
  refine ⟨by with_unfolding_all decide, by with_unfolding_all decide⟩

/-- Claim C10 counterexample: on `13.05.2026` both the general numeric
pattern and the dot-specific pattern match the same substring, so the
returned collection holds two identical candidates — it is not a set. -/
theorem extract_duplicates_counterexample :
    ¬ ((extract_potential_dates ("13.05.2026".toList)).toOption.getD []).Nodup := by
  with_unfolding_all decide

/-- Claim C10 as amended: the extractor returns a list, with one entry per
matching pattern occurrence; a substring matched by several patterns
contributes several identical entries. -/
theorem extract_duplicates_amended :
    extract_potential_dates ("13.05.2026".toList) =
      .ok [⟨⟨2026, 5, 13⟩, "13.05.2026".toList, 85 / 100⟩,
           ⟨⟨2026, 5, 13⟩, "13.05.2026".toList, 85 / 100⟩] := by
  with_unfolding_all rfl

lemma makeDate_some (y m d : Int) (dt : Date) (h : makeDate y m d = some dt) :
    ValidDate dt ∧ (dt.year : Int) = y := by
  unfold makeDate at h
  split at h
  case isFalse => exact absurd h (by simp)
  case isTrue hc =>
    obtain ⟨h1, h2, h3, h4, h5, h6⟩ := hc
    simp only [Option.some.injEq] at h
    subst h
    have hy : ((y.toNat : Int)) = y := by omega
    have hm : ((m.toNat : Int)) = m := by omega
    have hd : ((d.toNat : Int)) = d := by omega
    unfold ValidDate
    dsimp only
    refine ⟨⟨by omega, by omega, by omega, by omega, ?_⟩, hy⟩
    rw [hy, hm, hd]
    exact h6

lemma tryReturnDate_some (day mon yrRaw : Int) (dt : Date)
    (h : tryReturnDate day mon yrRaw = some dt) :
    ValidDate dt ∧ 2020 ≤ dt.year ∧ dt.year ≤ 2035 := by
  unfold tryReturnDate at h
  split at h
  case h_2 => exact absurd h (by simp)
  case h_1 d0 hmk =>
    split at h
    case isFalse => exact absurd h (by simp)
    case isTrue hwin =>
      simp only [Option.some.injEq] at h
      subst h
      obtain ⟨hv, hy⟩ := makeDate_some _ _ _ _ hmk
      exact ⟨hv, by omega, by omega⟩

lemma parseNumeric_ok_some (digs : List Txt) (dt : Date)
    (h : parseNumeric digs = .ok (some dt)) :
    ValidDate dt ∧ 2020 ≤ dt.year ∧ dt.year ≤ 2035 := by
  unfold parseNumeric at h
  split at h
  case h_2 => exact absurd h (by simp)
  case h_1 ga gb gc =>
    simp only [Except.ok.injEq] at h
    exact tryReturnDate_some _ _ _ _ h

lemma parseFromMatch_ok_some (m : RMatch) (dt : Date)
    (h : parseFromMatch m = .ok (some dt)) :
    ValidDate dt ∧ 2020 ≤ dt.year ∧ dt.year ≤ 2035 := by
  unfold parseFromMatch at h
  split at h
  · exact absurd h (by simp)
  · split at h
    · split at h
      · split at h
        · exact absurd h (by simp)
        · exact absurd h (by simp)
      · exact parseNumeric_ok_some _ _ h
    · exact absurd h (by simp)

lemma parseGo_ok_some (text : Txt) (ps : List Matcher) (dt : Date)
    (h : parseGo text ps = .ok (some dt)) :
    ValidDate dt ∧ 2020 ≤ dt.year ∧ dt.year ≤ 2035 := by
  induction ps with
  | nil => exact absurd h (by simp [parseGo])
  | cons p ps ih =>
    unfold parseGo at h
    split at h
    · exact ih h
    · split at h
      · exact absurd h (by simp)
      · case _ d0 heq =>
        simp only [Except.ok.injEq, Option.some.injEq] at h
        subst h
        exact parseFromMatch_ok_some _ _ heq
      · exact ih h

lemma parse_date_ok_some (text : Txt) (dt : Date)
    (h : parse_date text = .ok (some dt)) :
    ValidDate dt ∧ 2020 ≤ dt.year ∧ dt.year ≤ 2035 :=
  parseGo_ok_some text DATE_PATTERNS dt h

lemma extractMatches_good (ms : List RMatch) (acc out : List Candidate)
    (h : extractMatches ms acc = .ok out)
    (hacc : ∀ c ∈ acc, ValidDate c.date ∧ 2020 ≤ c.date.year ∧ c.date.year ≤ 2035) :
    ∀ c ∈ out, ValidDate c.date ∧ 2020 ≤ c.date.year ∧ c.date.year ≤ 2035 := by
  induction ms generalizing acc with
  | nil =>
    simp only [extractMatches, Except.ok.injEq] at h
    subst h; exact hacc
  | cons mt rest ih =>
    unfold extractMatches at h
    split at h
    · exact absurd h (by simp)
    · exact ih _ h hacc
    · case _ dtv heq =>
      refine ih _ h ?_
      intro c hc
      rcases List.mem_append.mp hc with h1 | h2
      · exact hacc c h1
      · have hco : c = { date := dtv, raw := mt.raw, confidence := 85 / 100 } := by
          simpa using h2
        subst hco
        exact parse_date_ok_some mt.raw dtv heq

lemma extractPats_good (text : Txt) (ps : List Matcher) (acc out : List Candidate)
    (h : extractPats text ps acc = .ok out)
    (hacc : ∀ c ∈ acc, ValidDate c.date ∧ 2020 ≤ c.date.year ∧ c.date.year ≤ 2035) :
    ∀ c ∈ out, ValidDate c.date ∧ 2020 ≤ c.date.year ∧ c.date.year ≤ 2035 := by
  induction ps generalizing acc with
  | nil =>
    simp only [extractPats, Except.ok.injEq] at h
    subst h; exact hacc
  | cons p ps ih =>
    unfold extractPats at h
    split at h
    · exact absurd h (by simp)
    · case _ acc2 heq =>
      exact ih _ h (extractMatches_good _ _ _ heq hacc)

/-- Claim C2: every candidate the extractor returns carries a valid
calendar date (no Feb 30, no month 13) whose year lies in the plausibility
window 2020-2035, because `parse_date` only returns a date after the
`datetime` construction succeeds and the window test passes; consequently
no returned candidate can carry an out-of-window occurrence. -/
theorem extract_candidates_valid_and_in_window (text : Txt)
    (cands : List Candidate) (h : extract_potential_dates text = .ok cands) :
    ∀ c ∈ cands, ValidDate c.date ∧ 2020 ≤ c.date.year ∧ c.date.year ≤ 2035 :=
  extractPats_good text DATE_PATTERNS [] cands h (by simp)

/-- Witness for `extract_candidates_valid_and_in_window` on the concrete
extraction from `13-05-2026`. -/
theorem extract_candidates_valid_and_in_window_witness :
    ValidDate ⟨2026, 5, 13⟩ ∧ 2020 ≤ (Date.mk 2026 5 13).year ∧
      (Date.mk 2026 5 13).year ≤ 2035 :=
  extract_candidates_valid_and_in_window ("13-05-2026".toList)
    [⟨⟨2026, 5, 13⟩, "13-05-2026".toList, 85 / 100⟩]
    (by with_unfolding_all rfl)
    ⟨⟨2026, 5, 13⟩, "13-05-2026".toList, 85 / 100⟩
    (List.mem_singleton.mpr rfl)

lemma foldl_maxStep_decomp (f : Scored → ℚ) (xs : List Scored) (x : Scored) :
    ∃ l1 l2,
      x :: xs = l1 ++ (xs.foldl (maxStep f) x) :: l2 ∧
      (∀ a ∈ l1, f a < f (xs.foldl (maxStep f) x)) ∧
      (∀ a ∈ x :: xs, f a ≤ f (xs.foldl (maxStep f) x)) := by
  induction xs generalizing x with
  | nil => exact ⟨[], [], rfl, by simp, by simp⟩
  | cons y ys ih =>
    by_cases hxy : f x < f y
    · have hstep : maxStep f x y = y := by simp [maxStep, hxy]
      have hfold : (y :: ys).foldl (maxStep f) x = ys.foldl (maxStep f) y := by
        rw [List.foldl_cons, hstep]
      obtain ⟨l1, l2, hdec, hlt, hle⟩ := ih y
      rw [hfold]
      refine ⟨x :: l1, l2, ?_, ?_, ?_⟩
      · rw [List.cons_append, ← hdec]
      · intro a ha
        rcases List.mem_cons.mp ha with h1 | h2
        · subst h1
          exact lt_of_lt_of_le hxy (hle y (by simp))
        · exact hlt a h2
      · intro a ha
        rcases List.mem_cons.mp ha with h1 | h2
        · subst h1
          exact le_of_lt (lt_of_lt_of_le hxy (hle y (by simp)))
        · exact hle a h2
    · have hstep : maxStep f x y = x := by simp [maxStep, hxy]
      have hfold : (y :: ys).foldl (maxStep f) x = ys.foldl (maxStep f) x := by
        rw [List.foldl_cons, hstep]
      obtain ⟨l1, l2, hdec, hlt, hle⟩ := ih x
      rw [hfold]
      cases l1 with
      | nil =>
        rw [List.nil_append, List.cons.injEq] at hdec
        obtain ⟨hxr, hl2⟩ := hdec
        have h1 : ys.foldl (maxStep f) x = x := hxr.symm
        refine ⟨[], y :: ys, ?_, by simp, ?_⟩
        · rw [List.nil_append, h1]
        · intro a ha
          rw [h1]
          rcases List.mem_cons.mp ha with hh | hh
          · exact le_of_eq (by rw [hh])
          · rcases List.mem_cons.mp hh with h3 | h3
            · rw [h3]
              exact le_of_not_lt hxy
            · have := hle a (List.mem_cons_of_mem x h3)
              rw [h1] at this
              exact this
      | cons z l1t =>
        rw [List.cons_append, List.cons.injEq] at hdec
        obtain ⟨hxz, hys⟩ := hdec
        have hxlt : f x < f (ys.foldl (maxStep f) x) := by
          refine hlt x ?_
          rw [hxz]
          exact List.mem_cons_self z l1t
        refine ⟨x :: y :: l1t, l2, ?_, ?_, ?_⟩
        · rw [List.cons_append, List.cons_append, ← hys]
        · intro a ha
          rcases List.mem_cons.mp ha with hh | hh
          · rw [hh]
            exact hxlt
          · rcases List.mem_cons.mp hh with h3 | h3
            · rw [h3]
              exact lt_of_le_of_lt (le_of_not_lt hxy) hxlt
            · exact hlt a (List.mem_cons_of_mem z h3)
        · intro a ha
          rcases List.mem_cons.mp ha with hh | hh
          · rw [hh]
            exact le_of_lt hxlt
          · rcases List.mem_cons.mp hh with h3 | h3
            · rw [h3]
              exact le_trans (le_of_not_lt hxy) (le_of_lt hxlt)
            · exact hle a (List.mem_cons_of_mem x h3)

/-- Claim C3: for a non-empty candidate list the selector scores every
candidate (none are discarded), with `daysUntil` the floor of the
difference to `now` in whole days and the three multiplicative confidence
bands of lines 166-171, and returns the candidate of maximum adjusted
confidence, earlier candidates winning ties. -/
theorem selector_scores_and_picks_first_max (now : Int) (cands : List Candidate)
    (hne : cands ≠ []) (hconf : ∀ c ∈ cands, c.confidence ≤ 1) :
    ∃ b l1 l2,
      select_best_expiry now cands = some b ∧
      cands.map (score_candidate now) = l1 ++ b :: l2 ∧
      (∀ s ∈ l1, s.confidence < b.confidence) ∧
      (∀ s ∈ cands.map (score_candidate now), s.confidence ≤ b.confidence) ∧
      (cands.map (score_candidate now)).length = cands.length ∧
      (∀ c ∈ cands,
        (score_candidate now c).days_until = Int.fdiv (dateToSec c.date - now) 86400 ∧
        ((1 ≤ Int.fdiv (dateToSec c.date - now) 86400 ∧
            Int.fdiv (dateToSec c.date - now) 86400 ≤ 540) →
          (score_candidate now c).confidence = min (c.confidence * (14 / 10)) 1) ∧
        ((540 < Int.fdiv (dateToSec c.date - now) 86400 ∧
            Int.fdiv (dateToSec c.date - now) 86400 ≤ 1825) →
          (score_candidate now c).confidence = c.confidence * (9 / 10)) ∧
        (¬(1 ≤ Int.fdiv (dateToSec c.date - now) 86400 ∧
            Int.fdiv (dateToSec c.date - now) 86400 ≤ 1825) →
          (score_candidate now c).confidence = c.confidence * (3 / 10))) := by
  obtain ⟨c, cs, rfl⟩ : ∃ c cs, cands = c :: cs := by
    cases cands with
    | nil => exact absurd rfl hne
    | cons c cs => exact ⟨c, cs, rfl⟩
  obtain ⟨l1, l2, hdec, hlt, hle⟩ :=
    foldl_maxStep_decomp (fun s => s.confidence) (cs.map (score_candidate now))
      (score_candidate now c)
  refine ⟨(cs.map (score_candidate now)).foldl
      (maxStep (fun s => s.confidence)) (score_candidate now c), l1, l2,
    rfl, hdec, hlt, hle, by simp, ?_⟩
  intro c' hc'
  refine ⟨rfl, ?_, ?_, ?_⟩
  · intro hband
    simp [score_candidate, hband]
  · intro hband
    have hd1 : 1 ≤ Int.fdiv (dateToSec c'.date - now) 86400 := by omega
    have hd540 : ¬ Int.fdiv (dateToSec c'.date - now) 86400 ≤ 540 := by omega
    have hd1825 : Int.fdiv (dateToSec c'.date - now) 86400 ≤ 1825 := hband.2
    have h9 : c'.confidence * (9 / 10) ≤ 1 := by nlinarith [hconf c' hc']
    simp [score_candidate, hd1, hd540, hd1825, min_eq_left h9]
  · intro hband
    have hc1 : ¬(1 ≤ Int.fdiv (dateToSec c'.date - now) 86400 ∧
        Int.fdiv (dateToSec c'.date - now) 86400 ≤ 540) := by omega
    have h3 : c'.confidence * (3 / 10) ≤ 1 := by nlinarith [hconf c' hc']
    simp [score_candidate, hc1, hband, min_eq_left h3]

/-- Witness for `selector_scores_and_picks_first_max` on a singleton. -/
theorem selector_scores_and_picks_first_max_witness :
    ∃ b l1 l2,
      select_best_expiry (dateToSec ⟨2026, 1, 1⟩)
        [⟨⟨2026, 1, 11⟩, "a".toList, 85 / 100⟩] = some b ∧
      [⟨⟨2026, 1, 11⟩, "a".toList, 85 / 100⟩].map
        (score_candidate (dateToSec ⟨2026, 1, 1⟩)) = l1 ++ b :: l2 ∧
      (∀ s ∈ l1, s.confidence < b.confidence) ∧
      (∀ s ∈ [⟨⟨2026, 1, 11⟩, "a".toList, 85 / 100⟩].map
        (score_candidate (dateToSec ⟨2026, 1, 1⟩)), s.confidence ≤ b.confidence) ∧
      ([⟨⟨2026, 1, 11⟩, "a".toList, 85 / 100⟩].map
        (score_candidate (dateToSec ⟨2026, 1, 1⟩))).length =
        [(⟨⟨2026, 1, 11⟩, "a".toList, 85 / 100⟩ : Candidate)].length ∧
      (∀ c ∈ [(⟨⟨2026, 1, 11⟩, "a".toList, 85 / 100⟩ : Candidate)],
        (score_candidate (dateToSec ⟨2026, 1, 1⟩) c).days_until =
          Int.fdiv (dateToSec c.date - dateToSec ⟨2026, 1, 1⟩) 86400 ∧
        ((1 ≤ Int.fdiv (dateToSec c.date - dateToSec ⟨2026, 1, 1⟩) 86400 ∧
            Int.fdiv (dateToSec c.date - dateToSec ⟨2026, 1, 1⟩) 86400 ≤ 540) →
          (score_candidate (dateToSec ⟨2026, 1, 1⟩) c).confidence =
            min (c.confidence * (14 / 10)) 1) ∧
        ((540 < Int.fdiv (dateToSec c.date - dateToSec ⟨2026, 1, 1⟩) 86400 ∧
            Int.fdiv (dateToSec c.date - dateToSec ⟨2026, 1, 1⟩) 86400 ≤ 1825) →
          (score_candidate (dateToSec ⟨2026, 1, 1⟩) c).confidence =
            c.confidence * (9 / 10)) ∧
        (¬(1 ≤ Int.fdiv (dateToSec c.date - dateToSec ⟨2026, 1, 1⟩) 86400 ∧
            Int.fdiv (dateToSec c.date - dateToSec ⟨2026, 1, 1⟩) 86400 ≤ 1825) →
          (score_candidate (dateToSec ⟨2026, 1, 1⟩) c).confidence =
            c.confidence * (3 / 10))) :=
  selector_scores_and_picks_first_max (dateToSec ⟨2026, 1, 1⟩)
    [⟨⟨2026, 1, 11⟩, "a".toList, 85 / 100⟩] (by simp)
    (by
      intro c hc
      rw [List.mem_singleton] at hc
      subst hc
      norm_num)

lemma foldl_maxStep_mem (f : Scored → ℚ) (xs : List Scored) (x : Scored) :
    xs.foldl (maxStep f) x ∈ x :: xs := by
  induction xs generalizing x with
  | nil => simp
  | cons y ys ih =>
    by_cases hxy : f x < f y
    · have hstep : maxStep f x y = y := by simp [maxStep, hxy]
      have hfold : (y :: ys).foldl (maxStep f) x = ys.foldl (maxStep f) y := by
        rw [List.foldl_cons, hstep]
      rw [hfold]
      rcases List.mem_cons.mp (ih y) with h1 | h1
      · rw [h1]; simp
      · exact List.mem_cons_of_mem x (List.mem_cons_of_mem y h1)
    · have hstep : maxStep f x y = x := by simp [maxStep, hxy]
      have hfold : (y :: ys).foldl (maxStep f) x = ys.foldl (maxStep f) x := by
        rw [List.foldl_cons, hstep]
      rw [hfold]
      rcases List.mem_cons.mp (ih x) with h1 | h1
      · rw [h1]; simp
      · exact List.mem_cons_of_mem x (List.mem_cons_of_mem y h1)

/-- Claim C6 as amended: the selector reads the ambient clock itself and
the facade re-reads it for the reported days; modelling both reads as
parameters, selection is a pure function of them, and recomputing a
selected candidate's day horizon at the same instant the selector used
reproduces its stored `days_until` — so the facade's reported value agrees
with selection exactly when the two ambient reads yield the same floor. -/
theorem selection_days_consistent_at_equal_now (now : Int)
    (cands : List Candidate) (b : Scored)
    (h : select_best_expiry now cands = some b) :
    Int.fdiv (dateToSec b.date - now) 86400 = b.days_until := by
  unfold select_best_expiry at h
  split at h
  · exact absurd h (by simp)
  · cases hm : cands.map (score_candidate now) with
    | nil => rw [hm] at h; exact absurd h (by simp [pyMaxBy])
    | cons x xs =>
      rw [hm] at h
      simp only [pyMaxBy, Option.some.injEq] at h
      have hmem := foldl_maxStep_mem (fun s => s.confidence) xs x
      rw [h] at hmem
      have hmem2 : b ∈ cands.map (score_candidate now) := by
        rw [hm]; exact hmem
      obtain ⟨c, _hc, hbc⟩ := List.mem_map.mp hmem2
      subst hbc
      rfl

/-- Witness for `selection_days_consistent_at_equal_now`. -/
theorem selection_days_consistent_at_equal_now_witness :
    Int.fdiv (dateToSec (Date.mk 2026 5 13) -
      (dateToSec ⟨2026, 5, 13⟩ - 1)) 86400 =
      (Scored.mk ⟨2026, 5, 13⟩ ("13-05-2026".toList) (51 / 200) 0).days_until :=
  selection_days_consistent_at_equal_now (dateToSec ⟨2026, 5, 13⟩ - 1)
    [⟨⟨2026, 5, 13⟩, "13-05-2026".toList, 85 / 100⟩]
    ⟨⟨2026, 5, 13⟩, "13-05-2026".toList, 51 / 200, 0⟩
    (by with_unfolding_all decide)

/-- Claim C7: the facade returns the empty-candidates failure with the OCR
confidence and the 200-character-capped excerpt (with marker) when
extraction matches nothing, and maps every exception raised inside the
pipeline — image loading or the extractor itself throwing — to a failure
value with 0.0 OCR confidence instead of propagating it. -/
theorem facade_error_handling (loadRes : Except PyErr Unit)
    (runs : Nat → PassResult) (nowSel nowFin : Int) :
    (∀ e, loadRes = .error e →
      extract_expiry_date loadRes runs nowSel nowFin = .failureException e 0) ∧
    (∀ e, loadRes = .ok () →
      extract_potential_dates (extract_text runs).1 = .error e →
      extract_expiry_date loadRes runs nowSel nowFin = .failureException e 0) ∧
    (loadRes = .ok () →
      extract_potential_dates (extract_text runs).1 = .ok [] →
      extract_expiry_date loadRes runs nowSel nowFin =
        .failureNoPattern
          (if 200 < (extract_text runs).1.length then
            (extract_text runs).1.take 200 ++ "...".toList
          else (extract_text runs).1)
          (extract_text runs).2) := by
  refine ⟨?_, ?_, ?_⟩
  · intro e he
    subst he
    rfl
  · intro e hl hx
    subst hl
    unfold extract_expiry_date
    simp only [hx]
  · intro hl hx
    subst hl
    unfold extract_expiry_date
    simp only [hx]
    simp [truncate200]

/-- Witness for `facade_error_handling`: a load error surfaces as the
exception failure with 0.0 OCR confidence. -/
theorem facade_error_handling_witness :
    extract_expiry_date (.error ("boom".toList)) (fun _ => .error ()) 0 0 =
      .failureException ("boom".toList) 0 :=
  (facade_error_handling (.error ("boom".toList)) (fun _ => .error ()) 0 0).1
    ("boom".toList) rfl

lemma extractTextGo_eq (l : List PassResult) (ts : List Txt) (cs : List ℚ) :
    extractTextGo l ts cs =
      (ts ++ (l.filterMap passKeep).map Prod.fst,
       cs ++ (l.filterMap passKeep).map Prod.snd) := by
  induction l generalizing ts cs with
  | nil => simp [extractTextGo]
  | cons r rest ih =>
    cases r with
    | error u => simp [extractTextGo, passKeep, ih]
    | ok p =>
      obtain ⟨t, confs⟩ := p
      by_cases hs : (pyStrip t).isEmpty
      · simp [extractTextGo, passKeep, hs, ih]
      · simp [extractTextGo, passKeep, hs, ih]

lemma foldl_add_eq_sum (l : List ℚ) (a : ℚ) : l.foldl (· + ·) a = a + l.sum := by
  induction l generalizing a with
  | nil => simp
  | cons x xs ih => simp [List.foldl, ih, add_assoc]

/-- Claim C8: the recognition adapter runs the four profiles once each over
the same image; a pass that throws or whose text strips to empty is
excluded; each kept pass contributes its text and its mean non-negative
token confidence normalized by 100; the result joins the kept texts with
single spaces in invocation order and averages the kept confidences, and
degrades to `("", 0.0)` — a plain value, not an error — when everything is
excluded. -/
theorem text_adapter_aggregation (runs : Nat → PassResult) :
    (extract_text runs =
      if (PSM_LIST.map runs).filterMap passKeep = [] then ([], 0)
      else
        (joinSpace (((PSM_LIST.map runs).filterMap passKeep).map Prod.fst),
          (((PSM_LIST.map runs).filterMap passKeep).map Prod.snd).sum /
            (((PSM_LIST.map runs).filterMap passKeep).length : ℚ))) ∧
    (PSM_LIST.map runs).length = 4 := by
  constructor
  · unfold extract_text
    rw [extractTextGo_eq]
    simp only [List.nil_append]
    by_cases hk : (PSM_LIST.map runs).filterMap passKeep = []
    · simp [hk]
    · rw [if_neg hk]
      have h1 : ¬(((PSM_LIST.map runs).filterMap passKeep).map Prod.fst).isEmpty = true := by
        cases hkk : (PSM_LIST.map runs).filterMap passKeep with
        | nil => exact absurd hkk hk
        | cons a t => simp
      rw [if_neg h1, foldl_add_eq_sum, zero_add, List.length_map]
  · simp [PSM_LIST]

/-- Claim C9: the selector returns `none` exactly on an empty candidate
list, so the facade's defensive "found dates but none valid" branch is
unreachable: `extract_expiry_date` can never produce that failure. -/
theorem selector_none_iff_empty_and_defensive_unreachable :
    (∀ (now : Int) (cands : List Candidate),
      select_best_expiry now cands = none ↔ cands = []) ∧
    (∀ (loadRes : Except PyErr Unit) (runs : Nat → PassResult)
      (nowSel nowFin : Int) (raws : List Txt) (q : ℚ),
      extract_expiry_date loadRes runs nowSel nowFin ≠
        .failureNoValidFuture raws q) := by
  have hiff : ∀ (now : Int) (cands : List Candidate),
      select_best_expiry now cands = none ↔ cands = [] := by
    intro now cands
    constructor
    · intro h
      cases cands with
      | nil => rfl
      | cons c cs => exact absurd h (by simp [select_best_expiry, pyMaxBy])
    · intro h
      subst h
      rfl
  refine ⟨hiff, ?_⟩
  intro loadRes runs nowSel nowFin raws q h
  unfold extract_expiry_date at h
  split at h
  · exact FacadeResult.noConfusion h
  · split at h
    · exact FacadeResult.noConfusion h
    · split at h
      · exact FacadeResult.noConfusion h
      · split at h
        · case _ cands _ hemp _ hsel =>
          have : cands = [] := (hiff nowSel cands).mp hsel
          subst this
          simp at hemp
        · exact FacadeResult.noConfusion h

/-- Witness for `selector_none_iff_empty_and_defensive_unreachable` at
concrete inputs. -/
theorem selector_none_iff_empty_and_defensive_unreachable_witness :
    select_best_expiry 0 [] = none ∧
    extract_expiry_date (.ok ()) (fun _ => .error ()) 0 0 ≠
      .failureNoValidFuture [] 0 :=
  ⟨(selector_none_iff_empty_and_defensive_unreachable.1 0 []).mpr rfl,
   selector_none_iff_empty_and_defensive_unreachable.2 (.ok ())
     (fun _ => .error ()) 0 0 [] 0⟩

end FoodExpiry
